import Mathlib

/-!
# 2e100: the search / fetch / summarize pipeline of `cmd/main.go`

A shallow embedding of the `/search` handler and of its three stages
(`bingSearchEngineAPI`, `fetchSitesContent`, `summarizeContents`).

Conventions of the embedding.

* A Go function returning `(T, error)` is a Lean function returning
  `T × Option GoError`; `none` is Go's `nil` error.
* A Go slice whose capacity the program can observe (the handler evaluates
  `contents[:2]`, `encoding/json` decodes into the spare capacity of a slice)
  is a `GoSlice`: its visible elements together with the rest of its backing
  array.  A slice that is only ranged over or appended to is the list of its
  elements; `nil` and the empty slice are then the same list.
* Go strings, and the bytes of an HTTP body, are Lean strings.
* The two API keys (`Azurekey`, `Geminikey`, declared outside `main.go`) are parameters
  of the handler.
* Everything outside the process (the HTTP peers, the JSON scanner of
  `encoding/json`, the allocation policy of the runtime) is a field of `World`.
* `log.Printf` calls are not modelled.
-/

set_option autoImplicit false

namespace TwoE100

/-! ## Go values -/

/-- Values of Go's `error` interface that reach the program. -/
inductive GoError where
  /-- The error of `http.Get` or `client.Do`. -/
  | transport (msg : String)
  /-- The error of `ioutil.ReadAll` on a response body. -/
  | bodyRead (msg : String)
  /-- The error of `http.NewRequest`. -/
  | badRequestURL (msg : String)
  /-- A `*json.SyntaxError`: the bytes are not valid JSON. -/
  | invalidJSON (msg : String)
  /-- A `*json.UnmarshalTypeError`: a JSON `value` ("object", "array", "string", "number"
  or "bool") met a Go target of kind `target` ("struct", "slice" or "string"). -/
  | unmarshalType (value : String) (target : String)
  /-- The result of `fmt.Errorf`. -/
  | errorf (msg : String)
  deriving DecidableEq, Repr

/-- A Go slice: `elems` are the elements below `len`, `spare` the elements of the
backing array between `len` and `cap`. -/
structure GoSlice (α : Type) where
  elems : List α
  spare : List α
  deriving DecidableEq, Repr

namespace GoSlice

variable {α : Type}

/-- The `nil` slice. -/
def nil : GoSlice α := ⟨[], []⟩

/-- Go's `len(s)`. -/
def len (s : GoSlice α) : Nat := s.elems.length

/-- Go's `cap(s)`. -/
def cap (s : GoSlice α) : Nat := s.elems.length + s.spare.length

/-- The backing array of the slice, from its first element up to its capacity. -/
def backing (s : GoSlice α) : List α := s.elems ++ s.spare

/-- The slice expression `s[:n]`: a run-time panic (`none`) when `n > cap(s)`, and
otherwise the first `n` elements of the backing array, with the same capacity. -/
def resliceTo (s : GoSlice α) (n : Nat) : Option (GoSlice α) :=
  if n ≤ s.cap then some ⟨s.backing.take n, s.backing.drop n⟩ else none

/-- Go's `append(s, x)`.  With spare capacity the element is stored in place; otherwise
a new backing array of capacity `max (len+1) (growCap cap)` is allocated, its unused
part holding the zero value. -/
def append (growCap : Nat → Nat) (zero : α) (s : GoSlice α) (x : α) : GoSlice α :=
  match s.spare with
  | _ :: rest => ⟨s.elems ++ [x], rest⟩
  | [] => ⟨s.elems ++ [x], List.replicate (max (s.len + 1) (growCap s.cap) - (s.len + 1)) zero⟩

/-- The call `reflect.Value.Grow(1)`: afterwards `cap ≥ len + 1`; the old backing array is
kept and the added part is zeroed. -/
def grow1 (growCap : Nat → Nat) (zero : α) (s : GoSlice α) : GoSlice α :=
  if s.len + 1 ≤ s.cap then s
  else ⟨s.elems, s.spare ++ List.replicate (max (s.len + 1) (growCap s.cap) - s.cap) zero⟩

/-- The call `reflect.Value.SetLen(n)`, used with `n ≤ cap`. -/
def setLen (s : GoSlice α) (n : Nat) : GoSlice α :=
  ⟨s.backing.take n, s.backing.drop n⟩

/-- Store `x` at index `i < len`. -/
def setIndex (s : GoSlice α) (i : Nat) (x : α) : GoSlice α :=
  ⟨s.elems.set i x, s.spare⟩

end GoSlice

/-- The type `siteContent` of `main.go`. -/
structure siteContent where
  URL : String
  Content : String
  deriving DecidableEq, Repr

/-- The zero value of `siteContent`. -/
def siteContent.zero : siteContent := ⟨"", ""⟩

/-- The result of one HTTP exchange followed by `ioutil.ReadAll` on its body. -/
inductive HttpResult where
  /-- `http.Get` / `client.Do` returned an error. -/
  | doErr (err : GoError)
  /-- The exchange succeeded (whatever its status code) and reading the body failed. -/
  | readErr (err : GoError)
  /-- The body was read in full. -/
  | ok (body : String)
  deriving DecidableEq, Repr

/-! ## JSON values and `json.Unmarshal` into the program's types -/

/-- The value a syntactically valid JSON text denotes.  Object members keep their order
and their duplicates, as `encoding/json` sees them. -/
inductive Json where
  | null
  | bool (b : Bool)
  | num (literal : String)
  | str (s : String)
  | arr (items : List Json)
  | obj (members : List (String × Json))

/-- The `Value` that `encoding/json` reports in an `UnmarshalTypeError`. -/
def Json.kind : Json → String
  | .null => "null"
  | .bool _ => "bool"
  | .num _ => "number"
  | .str _ => "string"
  | .arr _ => "array"
  | .obj _ => "object"

/-- Everything outside the process. -/
structure World where
  /-- Capacity chosen by the runtime when a slice of the given capacity has to grow. -/
  growCap : Nat → Nat
  /-- The case folding `encoding/json` applies to object keys and field names. -/
  foldName : String → String
  /-- The JSON scanner of `encoding/json`: a syntax error, or the value the text denotes. -/
  parseJSON : String → Except GoError Json
  /-- The search provider: the `GET` of `bingSearchEngineAPI`, by API key and query. -/
  searchDo : String → String → HttpResult
  /-- The web: the `n`-th `http.Get` of a `fetchSitesContent` call (counted from 0), by URL. -/
  siteGet : Nat → String → HttpResult
  /-- The error of `http.NewRequest("POST", url, _)`, if any. -/
  newRequestErr : String → Option GoError
  /-- The generation provider: the `POST` of `summarizeContents`, by URL and JSON payload. -/
  genPost : String → Json → HttpResult

/-- A decoder updates the Go value already stored at the target and reports the earliest
type error it met (`decodeState.saveError`). -/
abbrev Decoder (α : Type) := α → Json → α × Option GoError

/-- The call `d.saveError`: only the first error is kept. -/
def firstError (saved new : Option GoError) : Option GoError :=
  match saved with
  | some e => some e
  | none => new

/-- Decoding into a Go `string`. -/
def decodeString : Decoder String
  | _, .str s => (s, none)
  | cur, .null => (cur, none)
  | cur, j => (cur, some (.unmarshalType j.kind "string"))

/-- Whether the object key `key` selects the struct field of JSON name `name`: an exact
match, or else a match after case folding. -/
def fieldMatches (fold : String → String) (name key : String) : Bool :=
  key == name || fold key == fold name

/-- The member loop of `decodeState.object` for a struct with one field: a member whose key
selects the field is decoded into it, any other member is skipped. -/
def decodeMembers {σ α : Type} (fold : String → String) (name : String)
    (get : σ → α) (set : σ → α → σ) (dec : Decoder α) :
    List (String × Json) → σ × Option GoError → σ × Option GoError
  | [], st => st
  | (key, j) :: rest, (cur, saved) =>
    if fieldMatches fold name key then
      let r := dec (get cur) j
      decodeMembers fold name get set dec rest (set cur r.1, firstError saved r.2)
    else
      decodeMembers fold name get set dec rest (cur, saved)

/-- Decoding into a struct with one field. -/
def decodeStruct {σ α : Type} (fold : String → String) (name : String)
    (get : σ → α) (set : σ → α → σ) (dec : Decoder α) : Decoder σ
  | cur, .obj members => decodeMembers fold name get set dec members (cur, none)
  | cur, .null => (cur, none)
  | cur, j => (cur, some (.unmarshalType j.kind "struct"))

/-- One round of the element loop of `decodeState.array` on a slice, for element `i`. -/
def decodeElement {α : Type} (growCap : Nat → Nat) (zero : α) (dec : Decoder α)
    (s : GoSlice α) (i : Nat) (j : Json) : GoSlice α × Option GoError :=
  let s1 := if i ≥ s.cap then s.grow1 growCap zero else s
  let s2 := if i ≥ s1.len then s1.setLen (i + 1) else s1
  if i < s2.len then
    let r := dec (s2.elems.getD i zero) j
    (s2.setIndex i r.1, r.2)
  else
    (s2, none)

/-- The element loop of `decodeState.array` on a slice, from element `i` on. -/
def decodeElements {α : Type} (growCap : Nat → Nat) (zero : α) (dec : Decoder α) :
    List Json → Nat → GoSlice α × Option GoError → (GoSlice α × Option GoError) × Nat
  | [], i, st => (st, i)
  | j :: rest, i, (s, saved) =>
    let r := decodeElement growCap zero dec s i j
    decodeElements growCap zero dec rest (i + 1) (r.1, firstError saved r.2)

/-- Decoding into a slice whose element type is not `byte`: a JSON array is decoded element
by element into the existing backing array, the slice is then cut to the number of
elements read, and an empty array yields a fresh empty slice; `null` yields `nil`. -/
def decodeSlice {α : Type} (growCap : Nat → Nat) (zero : α)
    (dec : Decoder α) : Decoder (GoSlice α)
  | cur, .arr items =>
    let r := decodeElements growCap zero dec items 0 (cur, none)
    let s := r.1.1
    let i := r.2
    let s1 := if i < s.len then s.setLen i else s
    let s2 := if i = 0 then ⟨[], []⟩ else s1
    (s2, r.1.2)
  | _, .null => (GoSlice.nil, none)
  | cur, j => (cur, some (.unmarshalType j.kind "slice"))

/-- The call `json.Unmarshal(body, &v)` with `v` holding `cur`: the whole text is checked
first, and only a valid text is decoded. -/
def unmarshal {α : Type} (w : World) (dec : Decoder α) (cur : α) (body : String) :
    α × Option GoError :=
  match w.parseJSON body with
  | .error err => (cur, some err)
  | .ok j => dec cur j

/-! ## `bingSearchEngineAPI` -/

/-- The element type of `result.WebPages.Value`. -/
structure SearchItem where
  URL : String
  deriving DecidableEq, Repr

/-- The type of `result.WebPages`. -/
structure SearchWebPages where
  Value : GoSlice SearchItem
  deriving DecidableEq, Repr

/-- The type of the local variable `result` of `bingSearchEngineAPI`. -/
structure SearchResult where
  WebPages : SearchWebPages
  deriving DecidableEq, Repr

/-- The zero value of `SearchResult`. -/
def SearchResult.zero : SearchResult := ⟨⟨GoSlice.nil⟩⟩

/-- Decoding into an element of `result.WebPages.Value` (field `url`). -/
def decodeSearchItem (w : World) : Decoder SearchItem :=
  decodeStruct w.foldName "url" (fun v => v.URL) (fun _ u => ⟨u⟩) decodeString

/-- Decoding into `result.WebPages` (field `value`). -/
def decodeWebPages (w : World) : Decoder SearchWebPages :=
  decodeStruct w.foldName "value" (fun v => v.Value) (fun _ s => ⟨s⟩)
    (decodeSlice w.growCap ⟨""⟩ (decodeSearchItem w))

/-- Decoding into `result` (field `webPages`). -/
def decodeSearchResult (w : World) : Decoder SearchResult :=
  decodeStruct w.foldName "webPages" (fun v => v.WebPages) (fun _ p => ⟨p⟩) (decodeWebPages w)

/-- The loop `for _, v := range result.WebPages.Value { links = append(links, v.URL) }`,
started with `links`. -/
def collectLinks (value : List SearchItem) (links : List String) : List String :=
  value.foldl (fun acc v => acc ++ [v.URL]) links

/-- The function `bingSearchEngineAPI`.  `http.NewRequest` is given a constant, well-formed
endpoint and a nil body, so its error branch is not reachable. -/
def bingSearchEngineAPI (w : World) (apiKey query : String) : List String × Option GoError :=
  match w.searchDo apiKey query with
  | .doErr err => ([], some err)
  | .readErr err => ([], some err)
  | .ok body =>
    let r := unmarshal w (decodeSearchResult w) SearchResult.zero body
    match r.2 with
    | some err => ([], some err)
    | none => (collectLinks r.1.WebPages.Value.elems [], none)

/-! ## `fetchSitesContent` -/

/-- The outcome of `fetchSitesContent`: the two values it returns, and the URLs on which
`http.Get` was called, in call order. -/
structure FetchRun where
  contents : GoSlice siteContent
  err : Option GoError
  gets : List String
  deriving DecidableEq, Repr

/-- The loop of `fetchSitesContent` over the remaining URLs, `i` GETs having been made. -/
def fetchLoop (w : World) :
    List String → Nat → GoSlice siteContent → List String → FetchRun
  | [], _, contents, gets => ⟨contents, none, gets⟩
  | url :: rest, i, contents, gets =>
    match w.siteGet i url with
    | .doErr err => ⟨GoSlice.nil, some err, gets ++ [url]⟩
    | .readErr err => ⟨GoSlice.nil, some err, gets ++ [url]⟩
    | .ok body =>
      fetchLoop w rest (i + 1)
        (contents.append w.growCap siteContent.zero ⟨url, body⟩) (gets ++ [url])

/-- The function `fetchSitesContent`. -/
def fetchSitesContent (w : World) (urls : List String) : FetchRun :=
  fetchLoop w urls 0 GoSlice.nil []

/-! ## `summarizeContents` -/

/-- The element type of `Parts`. -/
structure Part where
  Text : String
  deriving DecidableEq, Repr

/-- The element type of `GenerateContentPayload.Contents`. -/
structure Message where
  Role : String
  Parts : List Part
  deriving DecidableEq, Repr

/-- The type `GenerateContentPayload` of `main.go`. -/
structure GenerateContentPayload where
  Contents : List Message
  deriving DecidableEq, Repr

/-- The type `ApiResponse` of `main.go`. -/
structure ApiResponse where
  Text : GoSlice Part
  deriving DecidableEq, Repr

/-- The zero value of `ApiResponse`. -/
def ApiResponse.zero : ApiResponse := ⟨GoSlice.nil⟩

/-- The assignment `payload.Contents[0].Parts = append(payload.Contents[0].Parts, part)`. -/
def appendPart (payload : GenerateContentPayload) (part : Part) : GenerateContentPayload :=
  match payload.Contents with
  | [] => payload
  | m :: rest => ⟨⟨m.Role, m.Parts ++ [part]⟩ :: rest⟩

/-- The payload `summarizeContents` builds: the composite literal, then the loop over
`contents`. -/
def buildPayload (contents : List siteContent) : GenerateContentPayload :=
  contents.foldl (fun payload content => appendPart payload ⟨content.Content⟩)
    ⟨[⟨"user",
       [⟨"Summarize the following web pages as one. Be as much factual as possible."⟩]⟩]⟩

/-- The JSON value `json.Marshal(payload)` produces, following the struct tags.  `Marshal`
has no error on a value of this type. -/
def marshalPayload (payload : GenerateContentPayload) : Json :=
  .obj [("contents", .arr (payload.Contents.map fun m =>
    .obj [("role", .str m.Role),
          ("parts", .arr (m.Parts.map fun p => .obj [("text", .str p.Text)]))]))]

/-- Decoding into an element of `ApiResponse.Text` (field `text`). -/
def decodePart (w : World) : Decoder Part :=
  decodeStruct w.foldName "text" (fun v => v.Text) (fun _ t => ⟨t⟩) decodeString

/-- Decoding into an `ApiResponse` (field `text`). -/
def decodeApiResponse (w : World) : Decoder ApiResponse :=
  decodeStruct w.foldName "text" (fun v => v.Text) (fun _ s => ⟨s⟩)
    (decodeSlice w.growCap ⟨""⟩ (decodePart w))

/-- The outcome of `summarizeContents`: the two values it returns, and the requests it
sent (URL and JSON payload). -/
structure SummarizeRun where
  summary : String
  err : Option GoError
  posts : List (String × Json)

/-- The URL `summarizeContents` posts to. -/
def generateURL (apiKey : String) : String :=
  "https://generativelanguage.googleapis.com/v1beta/models/gemini-pro:generateContent?key="
    ++ apiKey

/-- The function `summarizeContents`. -/
def summarizeContents (w : World) (apiKey : String) (contents : List siteContent) :
    SummarizeRun :=
  let url := generateURL apiKey
  let jsonPayload := marshalPayload (buildPayload contents)
  match w.newRequestErr url with
  | some err => ⟨"", some err, []⟩
  | none =>
    match w.genPost url jsonPayload with
    | .doErr err => ⟨"", some err, [(url, jsonPayload)]⟩
    | .readErr err => ⟨"", some err, [(url, jsonPayload)]⟩
    | .ok body =>
      let r := unmarshal w (decodeApiResponse w) ApiResponse.zero body
      match r.2 with
      | some err => ⟨"", some err, [(url, jsonPayload)]⟩
      | none =>
        if r.1.Text.len > 0 then
          ⟨(r.1.Text.elems.getD 0 ⟨""⟩).Text, none, [(url, jsonPayload)]⟩
        else
          ⟨"", some (.errorf "no summary returned from the API"), [(url, jsonPayload)]⟩

/-! ## The `/search` handler -/

/-- The parsed query string of a request (`url.Values`). -/
abbrev Values := List (String × List String)

/-- The method `url.Values.Get`: the first value of the key, or the empty string. -/
def Values.Get (v : Values) (key : String) : String :=
  match v.lookup key with
  | some (first :: _) => first
  | _ => ""

/-- The three stages the handler calls, as functions of their arguments. -/
structure Stages where
  search : String → String → List String × Option GoError
  fetch : List String → GoSlice siteContent × Option GoError
  summarize : String → List siteContent → String × Option GoError

/-- A call of the handler to one of its stages, with the arguments passed. -/
inductive Call where
  | search (apiKey query : String)
  | fetch (urls : List String)
  | summarize (apiKey : String) (contents : List siteContent)
  deriving DecidableEq, Repr

/-- The value the handler encodes as its JSON answer. -/
structure PipelineResponse where
  Links : List String
  Summary : String
  deriving DecidableEq, Repr

/-- What the handler does to the connection. -/
inductive Outcome where
  /-- The call `http.Error(w, msg, code)`, where `msg` is `text` followed by the message of
  `cause` when there is one. -/
  | httpError (code : Nat) (text : String) (cause : Option GoError)
  /-- Status 200 and the JSON encoding of the response. -/
  | json (response : PipelineResponse)
  /-- A run-time panic: the handler is aborted and nothing is written. -/
  | panicked (msg : String)
  deriving DecidableEq, Repr

/-- The outcome of one request: what was answered, and the stage calls made, in order. -/
structure HandlerRun where
  outcome : Outcome
  calls : List Call

/-- The `/search` handler of `main`, over the two API keys and the three stages. -/
def searchHandler (bingAPIKey genLangAPIKey : String) (st : Stages) (form : Values) :
    HandlerRun :=
  let query := form.Get "query"
  if query = "" then
    ⟨.httpError 400 "Query parameter 'query' is missing" none, []⟩
  else
    let c1 := Call.search bingAPIKey query
    match st.search bingAPIKey query with
    | (_, some err) => ⟨.httpError 500 "Failed to search: " (some err), [c1]⟩
    | (links, none) =>
      let c2 := Call.fetch links
      match st.fetch links with
      | (_, some _) => ⟨.httpError 500 "Failed to fetch site contents" none, [c1, c2]⟩
      | (contents, none) =>
        match contents.resliceTo 2 with
        | none => ⟨.panicked "slice bounds out of range", [c1, c2]⟩
        | some firstTwo =>
          let c3 := Call.summarize genLangAPIKey firstTwo.elems
          match st.summarize genLangAPIKey firstTwo.elems with
          | (_, some _) => ⟨.httpError 500 "Failed to summarize content" none, [c1, c2, c3]⟩
          | (summary, none) => ⟨.json ⟨links, summary⟩, [c1, c2, c3]⟩

/-- The two values `fetchSitesContent` returns to the handler. -/
def fetchStage (w : World) (urls : List String) : GoSlice siteContent × Option GoError :=
  ((fetchSitesContent w urls).contents, (fetchSitesContent w urls).err)

/-- The two values `summarizeContents` returns to the handler. -/
def summarizeStage (w : World) (apiKey : String) (contents : List siteContent) :
    String × Option GoError :=
  ((summarizeContents w apiKey contents).summary, (summarizeContents w apiKey contents).err)

/-- The stages as `main.go` defines them, run against a world. -/
def realStages (w : World) : Stages where
  search := bingSearchEngineAPI w
  fetch := fetchStage w
  summarize := summarizeStage w

/-! ## Shapes of JSON values, used to state what the decoders do -/

/-- The values of the members of an object whose key selects the field `name`, in order. -/
def selected (fold : String → String) (name : String) (members : List (String × Json)) :
    List Json :=
  (members.filter fun m => fieldMatches fold name m.1).map fun m => m.2

/-- A JSON value a Go `string` accepts: a string or `null`. -/
def stringOK : Json → Bool
  | .str _ => true
  | .null => true
  | _ => false

/-- A JSON value a struct with the one field `name` accepts: `null`, or an object in which
every member selecting the field holds a value the field accepts. -/
def structOK (fold : String → String) (name : String) (fieldOK : Json → Bool) : Json → Bool
  | .obj members => (selected fold name members).all fieldOK
  | .null => true
  | _ => false

/-- A JSON value a slice accepts: `null`, or an array of values its element type accepts. -/
def sliceOK (elemOK : Json → Bool) : Json → Bool
  | .arr items => items.all elemOK
  | .null => true
  | _ => false

/-- A JSON value that the variable `result` of `bingSearchEngineAPI` accepts: nothing met
under `webPages`, `value` and `url` has the wrong JSON type. -/
def searchBodyOK (fold : String → String) : Json → Bool :=
  structOK fold "webPages" (structOK fold "value" (sliceOK (structOK fold "url" stringOK)))

/-- The entry an element of the `value` array contributes to the links, when at most one of
its members selects `url`: the `url` string of an object, and the empty string for an
object without a `url` member or with a `null` one, and for a `null` element. -/
def itemLink (fold : String → String) : Json → Option String
  | .null => some ""
  | .obj members =>
    match selected fold "url" members with
    | [] => some ""
    | [.null] => some ""
    | [.str url] => some url
    | _ => none
  | _ => none

/-- A decoder `dec` reports no error exactly on the values `ok` accepts, whatever the target
holds. -/
def Accepts {α : Type} (dec : Decoder α) (ok : Json → Bool) : Prop :=
  ∀ cur j, (dec cur j).2 = none ↔ ok j = true

/-! ## Concrete scenarios -/

/-- The scenario of the specification: three search results, contents "A", "B", "C", and a
summarizer that answers "summary-of-A-B" when it is given "A" and "B". -/
def scenarioStages : Stages where
  search := fun _ _ => (["https://a.example", "https://b.example", "https://c.example"], none)
  fetch := fun _ =>
    (⟨[⟨"https://a.example", "A"⟩, ⟨"https://b.example", "B"⟩, ⟨"https://c.example", "C"⟩],
      [siteContent.zero]⟩, none)
  summarize := fun _ contents =>
    if contents.map (fun c => c.Content) = ["A", "B"] then ("summary-of-A-B", none)
    else ("", some (.errorf "unexpected contents"))

/-- The request `GET /search?query=rust+ownership`. -/
def scenarioForm : Values := [("query", ["rust ownership"])]

/-- ASCII upper-casing, the case folding of the scenario world. -/
def asciiUpper (s : String) : String := ⟨s.data.map Char.toUpper⟩

/-- The JSON texts the scenario world knows, each with the value it denotes. -/
def scenarioTexts : List (String × Json) :=
  [("\x7b\"webPages\":\x7b\"value\":[]\x7d\x7d",
      .obj [("webPages", .obj [("value", .arr [])])]),
   ("\x7b\"webPages\":\x7b\"value\":[\x7b\"url\":\"https://a.example\"\x7d]\x7d\x7d",
      .obj [("webPages", .obj [("value", .arr [.obj [("url", .str "https://a.example")]])])]),
   ("\x7b\"webPages\":\x7b\"value\":[\x7b\"url\":\"https://a.example\"\x7d," ++
    "\x7b\"url\":\"https://b.example\"\x7d,\x7b\"url\":\"https://c.example\"\x7d]\x7d\x7d",
      .obj [("webPages", .obj [("value", .arr
        [.obj [("url", .str "https://a.example")], .obj [("url", .str "https://b.example")],
         .obj [("url", .str "https://c.example")]])])]),
   ("\x7b\"webPages\":5\x7d", .obj [("webPages", .num "5")]),
   ("\x7b\"webPages\":\x7b\"value\":[\x7b\"name\":\"a\"\x7d]\x7d\x7d",
      .obj [("webPages", .obj [("value", .arr [.obj [("name", .str "a")]])])]),
   ("\x7b\"text\":[\x7b\"text\":\"summary-of-A-B\"\x7d]\x7d",
      .obj [("text", .arr [.obj [("text", .str "summary-of-A-B")]])]),
   ("\x7b\"text\":[]\x7d", .obj [("text", .arr [])]),
   ("\x7b\x7d", .obj []),
   ("\x7b\"webPages\":\x7b\"value\":[\x7b\"url\":\"https://a.example\"\x7d," ++
    "\x7b\"name\":\"b\"\x7d]\x7d\x7d",
      .obj [("webPages", .obj [("value", .arr
        [.obj [("url", .str "https://a.example")], .obj [("name", .str "b")]])])])]

/-- The body the scenario search provider answers with, by query. -/
def scenarioSearchBody (query : String) : String :=
  if query = "nothing" then "\x7b\"webPages\":\x7b\"value\":[]\x7d\x7d"
  else if query = "one" then
    "\x7b\"webPages\":\x7b\"value\":[\x7b\"url\":\"https://a.example\"\x7d]\x7d\x7d"
  else if query = "wrong type" then "\x7b\"webPages\":5\x7d"
  else if query = "empty object" then "\x7b\x7d"
  else if query = "mixed" then
    "\x7b\"webPages\":\x7b\"value\":[\x7b\"url\":\"https://a.example\"\x7d," ++
    "\x7b\"name\":\"b\"\x7d]\x7d\x7d"
  else if query = "no url" then
    "\x7b\"webPages\":\x7b\"value\":[\x7b\"name\":\"a\"\x7d]\x7d\x7d"
  else
    "\x7b\"webPages\":\x7b\"value\":[\x7b\"url\":\"https://a.example\"\x7d," ++
    "\x7b\"url\":\"https://b.example\"\x7d,\x7b\"url\":\"https://c.example\"\x7d]\x7d\x7d"

/-- A world for the scenario of the specification: capacities double, pages "A", "B", "C"
at the three example URLs, any other host refusing the connection, and a generation
provider that answers with one candidate. -/
def scenarioWorld : World where
  growCap := fun c => 2 * c
  foldName := asciiUpper
  parseJSON := fun text =>
    match scenarioTexts.lookup text with
    | some j => .ok j
    | none => .error (.invalidJSON "invalid character")
  searchDo := fun _ query => .ok (scenarioSearchBody query)
  siteGet := fun _ url =>
    if url = "https://a.example" then .ok "A"
    else if url = "https://b.example" then .ok "B"
    else if url = "https://c.example" then .ok "C"
    else .doErr (.transport "connection refused")
  newRequestErr := fun _ => none
  genPost := fun _ _ => .ok "\x7b\"text\":[\x7b\"text\":\"summary-of-A-B\"\x7d]\x7d"

/-- The scenario world with a generation provider that answers with no candidate. -/
def noCandidateWorld : World :=
  { scenarioWorld with genPost := fun _ _ => .ok "\x7b\"text\":[]\x7d" }

/-- Stubs that all succeed, the search stub with `links` and the fetch stub with one
content per link in a backing array of exactly that size. -/
def succeedingStubs (links : List String) : Stages where
  search := fun _ _ => (links, none)
  fetch := fun urls => (⟨urls.map fun u => ⟨u, "content of " ++ u⟩, []⟩, none)
  summarize := fun _ _ => ("a summary", none)

end TwoE100

namespace TwoE100

/-! ## Slices -/

theorem GoSlice.append_elems {α : Type} (g : Nat → Nat) (z : α) (s : GoSlice α) (x : α) :
    (s.append g z x).elems = s.elems ++ [x] := by
  unfold GoSlice.append
  cases s.spare <;> rfl

theorem GoSlice.resliceTo_eq_none {α : Type} (s : GoSlice α) (n : Nat) (h : s.cap < n) :
    s.resliceTo n = none := by
  unfold GoSlice.resliceTo
  rw [if_neg (by omega)]

theorem GoSlice.resliceTo_eq_some {α : Type} (s : GoSlice α) (n : Nat) (h : n ≤ s.cap) :
    s.resliceTo n = some ⟨s.backing.take n, s.backing.drop n⟩ := by
  unfold GoSlice.resliceTo
  rw [if_pos h]

theorem GoSlice.take_backing_of_le_len {α : Type} (s : GoSlice α) (n : Nat) (h : n ≤ s.len) :
    s.backing.take n = s.elems.take n := by
  unfold GoSlice.backing
  unfold GoSlice.len at h
  rw [List.take_append_of_le_length h]

theorem GoSlice.len_le_cap {α : Type} (s : GoSlice α) : s.len ≤ s.cap := by
  unfold GoSlice.len GoSlice.cap
  omega

/-! ## The handler -/

/-- With a non-empty query, succeeding stages and at least two elements of capacity in the
fetched slice, the handler answers with all the links and the summary. -/
theorem searchHandler_success (k1 k2 : String) (st : Stages) (form : Values)
    (links : List String) (contents : GoSlice siteContent) (summary : String)
    (hq : form.Get "query" ≠ "")
    (hs : st.search k1 (form.Get "query") = (links, none))
    (hf : st.fetch links = (contents, none))
    (hcap : 2 ≤ contents.cap)
    (hsum : st.summarize k2 (contents.backing.take 2) = (summary, none)) :
    (searchHandler k1 k2 st form).outcome = .json ⟨links, summary⟩ := by
  simp [searchHandler, hq, hs, hf, GoSlice.resliceTo_eq_some _ _ hcap, hsum]

/-- With fewer than two fetched contents the handler either panics before the summarize
stage, or hands it two entries, the second one never fetched. -/
theorem searchHandler_short_contents (k1 k2 : String) (st : Stages) (form : Values)
    (links : List String) (contents : GoSlice siteContent)
    (hq : form.Get "query" ≠ "")
    (hs : st.search k1 (form.Get "query") = (links, none))
    (hf : st.fetch links = (contents, none))
    (hlen : contents.len < 2) :
    ((searchHandler k1 k2 st form).outcome = .panicked "slice bounds out of range" ∧
      ∀ key cs, Call.summarize key cs ∉ (searchHandler k1 k2 st form).calls) ∨
    (∃ cs, Call.summarize k2 cs ∈ (searchHandler k1 k2 st form).calls ∧
      cs.length = 2 ∧ cs ≠ contents.elems) := by
  by_cases hcap : 2 ≤ contents.cap
  · right
    refine ⟨contents.backing.take 2, ?_, ?_, ?_⟩
    · simp only [searchHandler, hq, hs, hf, GoSlice.resliceTo_eq_some _ _ hcap, if_false]
      cases hsum : st.summarize k2 (contents.backing.take 2) with
      | mk summary err => cases err <;> simp
    · have : 2 ≤ contents.backing.length := by
        simpa [GoSlice.backing, GoSlice.cap] using hcap
      simp [List.length_take, this]
    · intro h
      have h1 : (contents.backing.take 2).length = 2 := by
        have : 2 ≤ contents.backing.length := by
          simpa [GoSlice.backing, GoSlice.cap] using hcap
        simp [List.length_take, this]
      rw [h] at h1
      unfold GoSlice.len at hlen
      omega
  · left
    have hnone : contents.resliceTo 2 = none := GoSlice.resliceTo_eq_none _ _ (by omega)
    simp [searchHandler, hq, hs, hf, hnone]

/-- Claim C1, at a failing input: with stubs that all succeed and a search stub returning
no link (or a single link), the handler panics at `contents[:2]` and writes no body, so
the answer does not carry the links and the summary. -/
theorem C1_short_link_list_panics :
    (searchHandler "k1" "k2" (succeedingStubs []) scenarioForm).outcome
        = .panicked "slice bounds out of range" ∧
    (searchHandler "k1" "k2" (succeedingStubs []) scenarioForm).calls
        = [.search "k1" "rust ownership", .fetch []] ∧
    (searchHandler "k1" "k2" (succeedingStubs ["https://a.example"]) scenarioForm).outcome
        = .panicked "slice bounds out of range" ∧
    (searchHandler "k1" "k2" (succeedingStubs ["https://a.example"]) scenarioForm).calls
        = [.search "k1" "rust ownership", .fetch ["https://a.example"]] := by
  decide

/-- Claim C2: when the `query` parameter is absent or is the empty string, the handler
answers 400 with the fixed message and calls none of the three stages. -/
theorem C2_empty_query_is_bad_request (k1 k2 : String) (st : Stages) (form : Values)
    (h : form.lookup "query" = none ∨ form.Get "query" = "") :
    (searchHandler k1 k2 st form).outcome
        = .httpError 400 "Query parameter 'query' is missing" none ∧
    (searchHandler k1 k2 st form).calls = [] := by
  have hq : form.Get "query" = "" := by
    rcases h with h | h
    · simp [Values.Get, h]
    · exact h
  simp [searchHandler, hq]

theorem C2_empty_query_is_bad_request_witness :
    ((searchHandler "k1" "k2" scenarioStages []).outcome
        = .httpError 400 "Query parameter 'query' is missing" none ∧
      (searchHandler "k1" "k2" scenarioStages []).calls = []) ∧
    ((searchHandler "k1" "k2" scenarioStages [("query", [""])]).outcome
        = .httpError 400 "Query parameter 'query' is missing" none ∧
      (searchHandler "k1" "k2" scenarioStages [("query", [""])]).calls = []) :=
  ⟨C2_empty_query_is_bad_request "k1" "k2" scenarioStages [] (Or.inl rfl),
   C2_empty_query_is_bad_request "k1" "k2" scenarioStages [("query", [""])]
     (Or.inr (by decide))⟩

/-- In every run the handler either does not reach the summarize stage, and then neither
its answer nor its calls depend on that stage, or it reaches it with one list `cs` of at
most two entries: the stage function is applied to `cs`, and its value there decides the
answer. -/
theorem searchHandler_summarize_dependence (k1 k2 : String)
    (search : String → String → List String × Option GoError)
    (fetch : List String → GoSlice siteContent × Option GoError) (form : Values) :
    ((∀ summarize summarize2,
        searchHandler k1 k2 ⟨search, fetch, summarize⟩ form
          = searchHandler k1 k2 ⟨search, fetch, summarize2⟩ form) ∧
      (∀ summarize key cs,
        Call.summarize key cs ∉ (searchHandler k1 k2 ⟨search, fetch, summarize⟩ form).calls)) ∨
    (∃ (links : List String) (cs : List siteContent), cs.length ≤ 2 ∧
      ∀ summarize,
        (searchHandler k1 k2 ⟨search, fetch, summarize⟩ form).calls
          = [.search k1 (form.Get "query"), .fetch links, .summarize k2 cs] ∧
        (∀ summary, summarize k2 cs = (summary, none) →
          (searchHandler k1 k2 ⟨search, fetch, summarize⟩ form).outcome
            = .json ⟨links, summary⟩) ∧
        (∀ summary err, summarize k2 cs = (summary, some err) →
          (searchHandler k1 k2 ⟨search, fetch, summarize⟩ form).outcome
            = .httpError 500 "Failed to summarize content" none)) := by
  by_cases hq : form.Get "query" = ""
  · left
    constructor <;> intros <;> simp [searchHandler, hq]
  · rcases hs : search k1 (form.Get "query") with ⟨links, _ | err⟩
    · rcases hf : fetch links with ⟨contents, _ | err⟩
      · cases hr : contents.resliceTo 2 with
        | none =>
          left
          constructor <;> intros <;> simp [searchHandler, hq, hs, hf, hr]
        | some firstTwo =>
          right
          have hft : firstTwo.elems.length ≤ 2 := by
            unfold GoSlice.resliceTo at hr
            split at hr
            · cases hr
              simp [List.length_take]
            · cases hr
          refine ⟨links, firstTwo.elems, hft, ?_⟩
          intro summarize
          refine ⟨?_, ?_, ?_⟩
          · simp only [searchHandler, hq, hs, hf, hr, if_false]
            rcases summarize k2 firstTwo.elems with ⟨summary, _ | err⟩ <;> rfl
          · intro summary hsum
            simp [searchHandler, hq, hs, hf, hr, hsum]
          · intro summary err hsum
            simp [searchHandler, hq, hs, hf, hr, hsum]
      · left
        constructor <;> intros <;> simp [searchHandler, hq, hs, hf]
    · left
      constructor <;> intros <;> simp [searchHandler, hq, hs]

/-- Claim C3: when at least two contents were fetched, the handler applies the summarize
stage to exactly the first two of them, in order: they are the argument of the logged call,
and the value of the stage function at these two entries decides the answer (the JSON body
with that summary, or the 500 of a failed summary).  And in every run, whatever the stages
do, the summarize stage is either not reached, the run then not depending on it at all, or
applied to one list of at most two entries. -/
theorem C3_summarize_receives_first_two (k1 k2 : String) (st : Stages) (form : Values) :
    (∀ (links : List String) (contents : GoSlice siteContent),
      form.Get "query" ≠ "" →
      st.search k1 (form.Get "query") = (links, none) →
      st.fetch links = (contents, none) →
      2 ≤ contents.len →
      (searchHandler k1 k2 st form).calls
        = [.search k1 (form.Get "query"), .fetch links,
           .summarize k2 (contents.elems.take 2)] ∧
      (contents.elems.take 2).length = 2 ∧
      (∀ summary, st.summarize k2 (contents.elems.take 2) = (summary, none) →
        (searchHandler k1 k2 st form).outcome = .json ⟨links, summary⟩) ∧
      (∀ summary err, st.summarize k2 (contents.elems.take 2) = (summary, some err) →
        (searchHandler k1 k2 st form).outcome
          = .httpError 500 "Failed to summarize content" none)) ∧
    (∀ (key : String) (cs : List siteContent),
      Call.summarize key cs ∈ (searchHandler k1 k2 st form).calls → cs.length ≤ 2) ∧
    (((∀ summarize summarize2,
          searchHandler k1 k2 ⟨st.search, st.fetch, summarize⟩ form
            = searchHandler k1 k2 ⟨st.search, st.fetch, summarize2⟩ form) ∧
        (∀ summarize key cs, Call.summarize key cs ∉
          (searchHandler k1 k2 ⟨st.search, st.fetch, summarize⟩ form).calls)) ∨
      (∃ (links : List String) (cs : List siteContent), cs.length ≤ 2 ∧
        ∀ summarize,
          (searchHandler k1 k2 ⟨st.search, st.fetch, summarize⟩ form).calls
            = [.search k1 (form.Get "query"), .fetch links, .summarize k2 cs] ∧
          (∀ summary, summarize k2 cs = (summary, none) →
            (searchHandler k1 k2 ⟨st.search, st.fetch, summarize⟩ form).outcome
              = .json ⟨links, summary⟩) ∧
          (∀ summary err, summarize k2 cs = (summary, some err) →
            (searchHandler k1 k2 ⟨st.search, st.fetch, summarize⟩ form).outcome
              = .httpError 500 "Failed to summarize content" none))) := by
  have hdep := searchHandler_summarize_dependence k1 k2 st.search st.fetch form
  refine ⟨?_, ?_, hdep⟩
  · intro links contents hq hs hf hlen
    have hcap : 2 ≤ contents.cap := le_trans hlen contents.len_le_cap
    have hlen2 : 2 ≤ contents.elems.length := hlen
    refine ⟨?_, by simp [List.length_take, hlen2], ?_, ?_⟩
    · simp only [searchHandler, hq, hs, hf, GoSlice.resliceTo_eq_some _ _ hcap, if_false,
        GoSlice.take_backing_of_le_len _ _ hlen]
      cases hsum : st.summarize k2 (contents.elems.take 2) with
      | mk summary err => cases err <;> rfl
    · intro summary hsum
      simp [searchHandler, hq, hs, hf, GoSlice.resliceTo_eq_some _ _ hcap,
        GoSlice.take_backing_of_le_len _ _ hlen, hsum]
    · intro summary err hsum
      simp [searchHandler, hq, hs, hf, GoSlice.resliceTo_eq_some _ _ hcap,
        GoSlice.take_backing_of_le_len _ _ hlen, hsum]
  · intro key cs hmem
    rcases hdep with ⟨-, hno⟩ | ⟨links, cs2, hlen, hrun⟩
    · exact absurd hmem (hno st.summarize key cs)
    · have hcalls := (hrun st.summarize).1
      have heq : searchHandler k1 k2 ⟨st.search, st.fetch, st.summarize⟩ form
          = searchHandler k1 k2 st form := rfl
      rw [heq] at hcalls
      rw [hcalls] at hmem
      simp at hmem
      obtain ⟨-, rfl⟩ := hmem
      exact hlen

theorem C3_summarize_receives_first_two_witness :
    (searchHandler "k1" "k2" scenarioStages scenarioForm).calls
      = [.search "k1" "rust ownership",
         .fetch ["https://a.example", "https://b.example", "https://c.example"],
         .summarize "k2" [⟨"https://a.example", "A"⟩, ⟨"https://b.example", "B"⟩]] ∧
    (searchHandler "k1" "k2" scenarioStages scenarioForm).outcome
      = .json ⟨["https://a.example", "https://b.example", "https://c.example"],
          "summary-of-A-B"⟩ :=
  have h := (C3_summarize_receives_first_two "k1" "k2" scenarioStages scenarioForm).1
    ["https://a.example", "https://b.example", "https://c.example"]
    ⟨[⟨"https://a.example", "A"⟩, ⟨"https://b.example", "B"⟩, ⟨"https://c.example", "C"⟩],
      [siteContent.zero]⟩
    (by decide) rfl rfl (by decide)
  ⟨h.1, h.2.2.1 "summary-of-A-B" (by decide)⟩

/-- Claim C4, at failing inputs: when the search returns no URL, or a single URL that is
fetched successfully, the handler panics at `contents[:2]`; the summarize stage is not
called and nothing is answered. -/
theorem C4_fewer_than_two_contents_panics :
    (fetchSitesContent scenarioWorld []) = ⟨GoSlice.nil, none, []⟩ ∧
    (searchHandler "k1" "k2" (realStages scenarioWorld) [("query", ["nothing"])]).outcome
        = .panicked "slice bounds out of range" ∧
    (searchHandler "k1" "k2" (realStages scenarioWorld) [("query", ["nothing"])]).calls
        = [.search "k1" "nothing", .fetch []] ∧
    (fetchSitesContent scenarioWorld ["https://a.example"])
        = ⟨⟨[⟨"https://a.example", "A"⟩], []⟩, none, ["https://a.example"]⟩ ∧
    (searchHandler "k1" "k2" (realStages scenarioWorld) [("query", ["one"])]).outcome
        = .panicked "slice bounds out of range" ∧
    (searchHandler "k1" "k2" (realStages scenarioWorld) [("query", ["one"])]).calls
        = [.search "k1" "one", .fetch ["https://a.example"]] := by
  decide

/-! ## `fetchSitesContent` -/

theorem fetchLoop_fails (w : World) (e : GoError) :
    ∀ (urls : List String) (K i : Nat) (c : GoSlice siteContent) (g : List String),
      1 ≤ K → K ≤ urls.length →
      (∀ n, n < K - 1 → ∃ body, w.siteGet (i + n) (urls.getD n "") = .ok body) →
      (w.siteGet (i + (K - 1)) (urls.getD (K - 1) "") = .doErr e ∨
        w.siteGet (i + (K - 1)) (urls.getD (K - 1) "") = .readErr e) →
      fetchLoop w urls i c g = ⟨GoSlice.nil, some e, g ++ urls.take K⟩ := by
  intro urls
  induction urls with
  | nil =>
    intro K i c g hK hlen
    simp at hlen
    omega
  | cons u rest ih =>
    intro K i c g hK hlen hok hfail
    obtain ⟨K, rfl⟩ : ∃ K0, K = K0 + 1 := ⟨K - 1, by omega⟩
    cases K with
    | zero =>
      simp only [Nat.zero_add, Nat.sub_self, Nat.add_zero, List.getD_cons_zero] at hfail
      rcases hfail with h | h <;> simp [fetchLoop, h]
    | succ K =>
      obtain ⟨body, hb⟩ := hok 0 (by omega)
      simp only [Nat.add_zero, List.getD_cons_zero] at hb
      have hrec := ih (K + 1) (i + 1) (c.append w.growCap siteContent.zero ⟨u, body⟩)
        (g ++ [u]) (by omega) (by simpa using hlen)
        (by
          intro n hn
          obtain ⟨b, hb2⟩ := hok (n + 1) (by omega)
          refine ⟨b, ?_⟩
          simpa [Nat.add_assoc, Nat.add_comm 1 n] using hb2)
        (by
          have h2 : i + 1 + (K + 1 - 1) = i + (K + 1 + 1 - 1) := by omega
          rw [h2]
          simpa using hfail)
      simp [fetchLoop, hb, hrec]

theorem fetchLoop_succeeds (w : World) (body : Nat → String) :
    ∀ (urls : List String) (i : Nat) (c : GoSlice siteContent) (g : List String),
      (∀ n, n < urls.length → w.siteGet (i + n) (urls.getD n "") = .ok (body (i + n))) →
      (fetchLoop w urls i c g).err = none ∧
      (fetchLoop w urls i c g).gets = g ++ urls ∧
      (fetchLoop w urls i c g).contents.elems
        = c.elems ++ (urls.enumFrom i).map (fun p => ⟨p.2, body p.1⟩) := by
  intro urls
  induction urls with
  | nil =>
    intro i c g _
    simp [fetchLoop]
  | cons u rest ih =>
    intro i c g hok
    have hb := hok 0 (by simp)
    simp only [Nat.add_zero, List.getD_cons_zero] at hb
    have hrec := ih (i + 1) (c.append w.growCap siteContent.zero ⟨u, body i⟩) (g ++ [u])
      (by
        intro n hn
        have h2 := hok (n + 1) (by simpa using hn)
        simpa [Nat.add_assoc, Nat.add_comm 1 n] using h2)
    simp only [fetchLoop, hb]
    refine ⟨hrec.1, ?_, ?_⟩
    · rw [hrec.2.1]; simp
    · rw [hrec.2.2, GoSlice.append_elems]; simp [List.enumFrom]

/-- Claim C5: when the fetch of the `K`-th URL is the first to fail (at `http.Get` or at the
body read), `fetchSitesContent` returns that error with the `nil` slice, has called
`http.Get` on the first `K` URLs only, and the handler answers 500 after the search and
fetch calls, without a summarize call. -/
theorem C5_fetch_fails_fast (w : World) (urls : List String) (K : Nat) (e : GoError)
    (hK : 1 ≤ K) (hlen : K ≤ urls.length)
    (hok : ∀ n, n < K - 1 → ∃ body, w.siteGet n (urls.getD n "") = .ok body)
    (hfail : w.siteGet (K - 1) (urls.getD (K - 1) "") = .doErr e ∨
      w.siteGet (K - 1) (urls.getD (K - 1) "") = .readErr e) :
    fetchSitesContent w urls = ⟨GoSlice.nil, some e, urls.take K⟩ ∧
    ∀ (k1 k2 : String) (search : String → String → List String × Option GoError)
      (summarize : String → List siteContent → String × Option GoError) (form : Values),
      form.Get "query" ≠ "" →
      search k1 (form.Get "query") = (urls, none) →
      (searchHandler k1 k2 ⟨search, fetchStage w, summarize⟩ form).outcome
          = .httpError 500 "Failed to fetch site contents" none ∧
      (searchHandler k1 k2 ⟨search, fetchStage w, summarize⟩ form).calls
          = [.search k1 (form.Get "query"), .fetch urls] := by
  have hrun : fetchSitesContent w urls = ⟨GoSlice.nil, some e, urls.take K⟩ := by
    have h := fetchLoop_fails w e urls K 0 GoSlice.nil [] hK hlen
      (by simpa using hok) (by simpa using hfail)
    simpa [fetchSitesContent] using h
  refine ⟨hrun, ?_⟩
  intro k1 k2 search summarize form hq hs
  simp [searchHandler, hq, hs, fetchStage, hrun]

theorem C5_fetch_fails_fast_witness :
    fetchSitesContent scenarioWorld
        ["https://a.example", "https://down.example", "https://c.example"]
      = ⟨GoSlice.nil, some (.transport "connection refused"),
          ["https://a.example", "https://down.example"]⟩ :=
  (C5_fetch_fails_fast scenarioWorld
    ["https://a.example", "https://down.example", "https://c.example"] 2
    (.transport "connection refused") (by decide) (by decide)
    (by
      intro n hn
      have h0 : n = 0 := by omega
      subst h0
      exact ⟨"A", by decide⟩)
    (Or.inl (by decide))).1

/-- Claim C6: when every fetch succeeds, `fetchSitesContent` returns no error and a slice
as long as the URL list whose `n`-th entry pairs the `n`-th URL with the body fetched for
it, having called `http.Get` once per URL in order; on the empty list it returns the `nil`
slice without error and without any fetch. -/
theorem C6_fetch_all_succeed (w : World) (urls : List String) (body : Nat → String)
    (hok : ∀ n, n < urls.length → w.siteGet n (urls.getD n "") = .ok (body n)) :
    (fetchSitesContent w urls).err = none ∧
    (fetchSitesContent w urls).contents.len = urls.length ∧
    (∀ n, n < urls.length →
      (fetchSitesContent w urls).contents.elems.getD n siteContent.zero
        = ⟨urls.getD n "", body n⟩) ∧
    (fetchSitesContent w urls).gets = urls ∧
    fetchSitesContent w [] = ⟨GoSlice.nil, none, []⟩ := by
  have h := fetchLoop_succeeds w body urls 0 GoSlice.nil [] (by simpa using hok)
  have helems : (fetchSitesContent w urls).contents.elems
      = (urls.enumFrom 0).map (fun p => ⟨p.2, body p.1⟩) := by
    simpa [fetchSitesContent, GoSlice.nil] using h.2.2
  refine ⟨h.1, ?_, ?_, ?_, rfl⟩
  · simp [GoSlice.len, helems]
  · intro n hn
    rw [helems]
    simp [List.getD_eq_getElem?_getD, List.getElem?_map, List.getElem?_enumFrom,
      List.getElem?_eq_getElem hn]
  · simpa [fetchSitesContent] using h.2.1

theorem C6_fetch_all_succeed_witness :
    (fetchSitesContent scenarioWorld ["https://a.example", "https://b.example"]).err = none ∧
    (fetchSitesContent scenarioWorld ["https://a.example", "https://b.example"]).contents.elems
      = [⟨"https://a.example", "A"⟩, ⟨"https://b.example", "B"⟩] ∧
    (fetchSitesContent scenarioWorld ["https://a.example", "https://b.example"]).gets
      = ["https://a.example", "https://b.example"] :=
  have h := C6_fetch_all_succeed scenarioWorld ["https://a.example", "https://b.example"]
    (fun n => if n = 0 then "A" else "B")
    (by
      intro n hn
      have h2 : n = 0 ∨ n = 1 := by simp at hn; omega
      rcases h2 with rfl | rfl <;> decide)
  ⟨h.1, by decide, h.2.2.2.1⟩

/-! ## `summarizeContents` -/

/-- Claim C8: when the provider's response decodes without error, `summarizeContents`
returns the text of the first decoded candidate and no error when the candidate list is
not empty, and the empty string with the error "no summary returned from the API", which
is neither a syntax nor a type error of the decoder, when it is empty; so it returns no
error exactly when the list is not empty. -/
theorem C8_first_candidate_or_empty_result (w : World) (apiKey : String)
    (contents : List siteContent) (body : String) (j : Json) (resp : ApiResponse)
    (hreq : w.newRequestErr (generateURL apiKey) = none)
    (hpost : w.genPost (generateURL apiKey) (marshalPayload (buildPayload contents))
      = .ok body)
    (hparse : w.parseJSON body = .ok j)
    (hdec : decodeApiResponse w ApiResponse.zero j = (resp, none)) :
    (∀ first rest, resp.Text.elems = first :: rest →
      (summarizeContents w apiKey contents).summary = first.Text ∧
      (summarizeContents w apiKey contents).err = none) ∧
    (resp.Text.elems = [] →
      (summarizeContents w apiKey contents).summary = "" ∧
      (summarizeContents w apiKey contents).err
        = some (.errorf "no summary returned from the API") ∧
      (∀ msg, (summarizeContents w apiKey contents).err ≠ some (.invalidJSON msg)) ∧
      (∀ v t, (summarizeContents w apiKey contents).err ≠ some (.unmarshalType v t))) ∧
    ((summarizeContents w apiKey contents).err = none ↔ resp.Text.elems ≠ []) := by
  have hun : unmarshal w (decodeApiResponse w) ApiResponse.zero body = (resp, none) := by
    simp [unmarshal, hparse, hdec]
  have hrun : summarizeContents w apiKey contents
      = if resp.Text.len > 0 then
          ⟨(resp.Text.elems.getD 0 ⟨""⟩).Text, none,
            [(generateURL apiKey, marshalPayload (buildPayload contents))]⟩
        else
          ⟨"", some (.errorf "no summary returned from the API"),
            [(generateURL apiKey, marshalPayload (buildPayload contents))]⟩ := by
    simp [summarizeContents, hreq, hpost, hun]
  refine ⟨?_, ?_, ?_⟩
  · intro first rest h
    simp [hrun, GoSlice.len, h]
  · intro h
    simp [hrun, GoSlice.len, h]
  · cases h : resp.Text.elems <;> simp [hrun, GoSlice.len, h]

theorem C8_first_candidate_or_empty_result_witness :
    ((summarizeContents scenarioWorld "k2" []).summary = "summary-of-A-B" ∧
      (summarizeContents scenarioWorld "k2" []).err = none) ∧
    ((summarizeContents noCandidateWorld "k2" []).summary = "" ∧
      (summarizeContents noCandidateWorld "k2" []).err
        = some (.errorf "no summary returned from the API")) :=
  ⟨(C8_first_candidate_or_empty_result scenarioWorld "k2" []
      "\x7b\"text\":[\x7b\"text\":\"summary-of-A-B\"\x7d]\x7d"
      (.obj [("text", .arr [.obj [("text", .str "summary-of-A-B")]])])
      ⟨⟨[⟨"summary-of-A-B"⟩], []⟩⟩ rfl rfl rfl (by decide)).1
        ⟨"summary-of-A-B"⟩ [] rfl,
   ((C8_first_candidate_or_empty_result noCandidateWorld "k2" []
      "\x7b\"text\":[]\x7d" (.obj [("text", .arr [])]) ⟨⟨[], []⟩⟩
      rfl rfl rfl (by decide)).2.1 rfl).1,
   ((C8_first_candidate_or_empty_result noCandidateWorld "k2" []
      "\x7b\"text\":[]\x7d" (.obj [("text", .arr [])]) ⟨⟨[], []⟩⟩
      rfl rfl rfl (by decide)).2.1 rfl).2.1⟩

/-! ## The decoders: which values they accept -/

theorem firstError_eq_none (a b : Option GoError) :
    firstError a b = none ↔ a = none ∧ b = none := by
  cases a <;> simp [firstError]

theorem decodeString_accepts : Accepts decodeString stringOK := by
  intro cur j
  cases j <;> simp [decodeString, stringOK]

theorem decodeMembers_err {σ α : Type} (fold : String → String) (name : String)
    (get : σ → α) (set : σ → α → σ) (dec : Decoder α) (ok : Json → Bool)
    (hdec : Accepts dec ok) :
    ∀ (members : List (String × Json)) (cur : σ) (saved : Option GoError),
      (decodeMembers fold name get set dec members (cur, saved)).2 = none ↔
        saved = none ∧ (selected fold name members).all ok = true := by
  intro members
  induction members with
  | nil => intro cur saved; simp [decodeMembers, selected]
  | cons m rest ih =>
    intro cur saved
    obtain ⟨key, j⟩ := m
    by_cases hm : fieldMatches fold name key = true
    · have hsel : selected fold name ((key, j) :: rest) = j :: selected fold name rest := by
        simp [selected, hm]
      simp only [decodeMembers, hm, if_true]
      rw [ih, hsel, firstError_eq_none, hdec (get cur) j]
      simp [and_assoc]
    · have hsel : selected fold name ((key, j) :: rest) = selected fold name rest := by
        simp [selected, hm]
      simp only [decodeMembers, hm]
      rw [hsel]
      exact ih cur saved

theorem decodeStruct_accepts {σ α : Type} (fold : String → String) (name : String)
    (get : σ → α) (set : σ → α → σ) (dec : Decoder α) (ok : Json → Bool)
    (hdec : Accepts dec ok) :
    Accepts (decodeStruct fold name get set dec) (structOK fold name ok) := by
  intro cur j
  cases j with
  | obj members =>
    simp only [decodeStruct, structOK]
    rw [decodeMembers_err fold name get set dec ok hdec]
    simp
  | _ => simp [decodeStruct, structOK]

theorem GoSlice.setLen_len {α : Type} (s : GoSlice α) (n : Nat) :
    (s.setLen n).len = min n s.cap := by
  simp [GoSlice.setLen, GoSlice.len, GoSlice.cap, GoSlice.backing]

theorem GoSlice.grow1_len {α : Type} (g : Nat → Nat) (z : α) (s : GoSlice α) :
    (s.grow1 g z).len = s.len := by
  unfold GoSlice.grow1
  split <;> rfl

theorem GoSlice.grow1_cap {α : Type} (g : Nat → Nat) (z : α) (s : GoSlice α) :
    s.len + 1 ≤ (s.grow1 g z).cap := by
  unfold GoSlice.grow1
  split
  · assumption
  · simp only [GoSlice.cap, GoSlice.len, List.length_append, List.length_replicate]
    omega

theorem GoSlice.setIndex_len {α : Type} (s : GoSlice α) (i : Nat) (x : α) :
    (s.setIndex i x).len = s.len := by
  simp [GoSlice.setIndex, GoSlice.len]

/-- One round of the element loop, started with `i ≤ len`: the element's decoder is run (on
some stored value), and afterwards `i + 1 ≤ len`. -/
theorem decodeElement_spec {α : Type} (g : Nat → Nat) (zero : α) (dec : Decoder α)
    (s : GoSlice α) (i : Nat) (j : Json) (hi : i ≤ s.len) :
    (∃ cur, (decodeElement g zero dec s i j).2 = (dec cur j).2) ∧
    i + 1 ≤ (decodeElement g zero dec s i j).1.len := by
  have hcap := s.len_le_cap
  have h1 : ∀ s1 : GoSlice α, s1 = (if i ≥ s.cap then s.grow1 g zero else s) →
      s1.len = s.len ∧ i + 1 ≤ s1.cap := by
    intro s1 hs1
    by_cases hc : i ≥ s.cap
    · rw [if_pos hc] at hs1
      subst hs1
      have := GoSlice.grow1_cap g zero s
      exact ⟨GoSlice.grow1_len g zero s, by omega⟩
    · rw [if_neg hc] at hs1
      subst hs1
      exact ⟨rfl, by omega⟩
  obtain ⟨hl1, hc1⟩ := h1 _ rfl
  have h2 : ∀ s2 : GoSlice α,
      s2 = (if i ≥ (if i ≥ s.cap then s.grow1 g zero else s).len then
        (if i ≥ s.cap then s.grow1 g zero else s).setLen (i + 1)
        else (if i ≥ s.cap then s.grow1 g zero else s)) → i < s2.len := by
    intro s2 hs2
    by_cases hl : i ≥ (if i ≥ s.cap then s.grow1 g zero else s).len
    · rw [if_pos hl] at hs2
      subst hs2
      rw [GoSlice.setLen_len]
      omega
    · rw [if_neg hl] at hs2
      subst hs2
      omega
  have hlt := h2 _ rfl
  unfold decodeElement
  simp only [hlt, if_true]
  refine ⟨⟨_, rfl⟩, ?_⟩
  rw [GoSlice.setIndex_len]
  omega

theorem decodeElements_err {α : Type} (g : Nat → Nat) (zero : α) (dec : Decoder α)
    (ok : Json → Bool) (hdec : Accepts dec ok) :
    ∀ (items : List Json) (i : Nat) (s : GoSlice α) (saved : Option GoError),
      i ≤ s.len →
      ((decodeElements g zero dec items i (s, saved)).1.2 = none ↔
        saved = none ∧ items.all ok = true) := by
  intro items
  induction items with
  | nil => intro i s saved _; simp [decodeElements]
  | cons j rest ih =>
    intro i s saved hi
    obtain ⟨⟨cur, herr⟩, hlen⟩ := decodeElement_spec g zero dec s i j hi
    simp only [decodeElements]
    rw [ih (i + 1) _ _ hlen, firstError_eq_none, herr, hdec cur j]
    simp [and_assoc]

theorem decodeSlice_accepts {α : Type} (g : Nat → Nat) (zero : α) (dec : Decoder α)
    (ok : Json → Bool) (hdec : Accepts dec ok) :
    Accepts (decodeSlice g zero dec) (sliceOK ok) := by
  intro cur j
  cases j with
  | arr items =>
    simp only [decodeSlice, sliceOK]
    rw [decodeElements_err g zero dec ok hdec items 0 cur none (Nat.zero_le _)]
    simp
  | _ => simp [decodeSlice, sliceOK]

theorem decodeSearchResult_accepts (w : World) :
    Accepts (decodeSearchResult w) (searchBodyOK w.foldName) :=
  decodeStruct_accepts _ _ _ _ _ _
    (decodeStruct_accepts _ _ _ _ _ _
      (decodeSlice_accepts _ _ _ _
        (decodeStruct_accepts _ _ _ _ _ _ decodeString_accepts)))

/-! ## The decoders: the values they store -/

theorem decodeMembers_skip {σ α : Type} (fold : String → String) (name : String)
    (get : σ → α) (set : σ → α → σ) (dec : Decoder α) :
    ∀ (members : List (String × Json)) (st : σ × Option GoError),
      selected fold name members = [] →
      decodeMembers fold name get set dec members st = st := by
  intro members
  induction members with
  | nil => intro st _; rfl
  | cons m rest ih =>
    intro st hsel
    obtain ⟨key, j⟩ := m
    obtain ⟨cur, saved⟩ := st
    by_cases hm : fieldMatches fold name key = true
    · simp [selected, hm] at hsel
    · have hrest : selected fold name rest = [] := by
        simpa [selected, hm] using hsel
      simp only [decodeMembers, hm]
      exact ih _ hrest

theorem decodeMembers_single {σ α : Type} (fold : String → String) (name : String)
    (get : σ → α) (set : σ → α → σ) (dec : Decoder α) (j : Json) :
    ∀ (members : List (String × Json)) (cur : σ) (saved : Option GoError),
      selected fold name members = [j] →
      decodeMembers fold name get set dec members (cur, saved)
        = (set cur (dec (get cur) j).1, firstError saved (dec (get cur) j).2) := by
  intro members
  induction members with
  | nil => intro cur saved hsel; simp [selected] at hsel
  | cons m rest ih =>
    intro cur saved hsel
    obtain ⟨key, v⟩ := m
    by_cases hm : fieldMatches fold name key = true
    · have hcons : v :: selected fold name rest = [j] := by
        simpa [selected, hm] using hsel
      have hv : v = j := by injection hcons
      have hrest : selected fold name rest = [] := by injection hcons
      subst hv
      simp only [decodeMembers, hm, if_true]
      exact decodeMembers_skip fold name get set dec rest _ hrest
    · have hrest : selected fold name rest = [j] := by
        simpa [selected, hm] using hsel
      simp only [decodeMembers, hm]
      exact ih cur saved hrest

/-- One round of the element loop on a slice with `len = i` whose spare capacity holds zero
values: the element is decoded from the zero value and appended. -/
theorem decodeElement_fresh {α : Type} (g : Nat → Nat) (zero : α) (dec : Decoder α)
    (s : GoSlice α) (i : Nat) (j : Json) (hlen : s.len = i)
    (hz : ∀ y ∈ s.spare, y = zero) :
    ∃ spare, (∀ y ∈ spare, y = zero) ∧
      decodeElement g zero dec s i j
        = (⟨s.elems ++ [(dec zero j).1], spare⟩, (dec zero j).2) := by
  obtain ⟨elems, spare0⟩ := s
  simp only [GoSlice.len] at hlen
  subst hlen
  have h1 : ∃ t, (∀ y ∈ t, y = zero) ∧
      (if elems.length ≥ (GoSlice.mk elems spare0).cap
        then (GoSlice.mk elems spare0).grow1 g zero else GoSlice.mk elems spare0)
        = ⟨elems, zero :: t⟩ := by
    cases spare0 with
    | nil =>
      obtain ⟨n, hn⟩ : ∃ n, max (elems.length + 1) (g elems.length) - elems.length = n + 1 :=
        ⟨max (elems.length + 1) (g elems.length) - elems.length - 1, by omega⟩
      refine ⟨List.replicate n zero, ?_, ?_⟩
      · intro y hy
        exact (List.mem_replicate.mp hy).2
      · simp only [GoSlice.cap, GoSlice.grow1, GoSlice.len, List.length_nil, Nat.add_zero,
          ge_iff_le, le_refl, if_true, List.nil_append]
        rw [if_neg (by omega), hn, List.replicate_succ]
    | cons z t =>
      refine ⟨t, fun y hy => hz y (List.mem_cons_of_mem _ hy), ?_⟩
      have hzz : z = zero := hz z (List.mem_cons_self _ _)
      subst hzz
      simp [GoSlice.cap]
  obtain ⟨t, ht, hs1⟩ := h1
  refine ⟨t, ht, ?_⟩
  unfold decodeElement
  simp only [hs1]
  simp [GoSlice.len, GoSlice.setLen, GoSlice.backing, GoSlice.setIndex,
    List.take_append_eq_append_take, List.drop_append_eq_append_drop, List.getD_eq_getElem?_getD]

theorem decodeElements_fresh {α : Type} (g : Nat → Nat) (zero : α) (dec : Decoder α) :
    ∀ (items : List Json) (xs : List α) (i : Nat) (s : GoSlice α),
      List.Forall₂ (fun item x => dec zero item = (x, none)) items xs →
      s.len = i → (∀ y ∈ s.spare, y = zero) →
      ∃ spare, (∀ y ∈ spare, y = zero) ∧
        decodeElements g zero dec items i (s, none)
          = ((⟨s.elems ++ xs, spare⟩, none), i + items.length) := by
  intro items
  induction items with
  | nil =>
    intro xs i s hall hlen hz
    cases hall
    exact ⟨s.spare, hz, by simp [decodeElements]⟩
  | cons j rest ih =>
    intro xs i s hall hlen hz
    cases hall with
    | cons hj hrest =>
      rename_i x xs
      obtain ⟨spare1, hz1, hstep⟩ := decodeElement_fresh g zero dec s i j hlen hz
      rw [hj] at hstep
      obtain ⟨spare2, hz2, hloop⟩ := ih xs (i + 1) ⟨s.elems ++ [x], spare1⟩ hrest
        (by simp [GoSlice.len] at hlen ⊢; omega) hz1
      refine ⟨spare2, hz2, ?_⟩
      simp only [decodeElements, hstep, firstError]
      rw [hloop]
      simp [Nat.add_assoc, Nat.add_comm 1]

/-- Decoding an array into the `nil` slice: when each item decodes from the zero value to
`x` without error, the slice holds these `x` in order. -/
theorem decodeSlice_fresh {α : Type} (g : Nat → Nat) (zero : α) (dec : Decoder α)
    (items : List Json) (xs : List α)
    (hall : List.Forall₂ (fun item x => dec zero item = (x, none)) items xs) :
    (decodeSlice g zero dec GoSlice.nil (.arr items)).1.elems = xs ∧
    (decodeSlice g zero dec GoSlice.nil (.arr items)).2 = none := by
  obtain ⟨spare, -, hloop⟩ := decodeElements_fresh g zero dec items xs 0 GoSlice.nil hall rfl
    (by intro y hy; simp [GoSlice.nil] at hy)
  have hlen : items.length = xs.length := hall.length_eq
  simp only [GoSlice.nil, List.nil_append, Nat.zero_add] at hloop
  have hnot : ¬ items.length < xs.length := by omega
  simp only [decodeSlice, GoSlice.nil, hloop, GoSlice.len, hnot, if_false, and_true]
  split
  · rename_i h0
    have : xs.length = 0 := by omega
    simp [List.length_eq_zero.mp this]
  · rfl

theorem collectLinks_eq (value : List SearchItem) :
    ∀ links : List String, collectLinks value links = links ++ value.map (fun v => v.URL) := by
  induction value with
  | nil => intro links; simp [collectLinks]
  | cons v rest ih =>
    intro links
    have h := ih (links ++ [v.URL])
    simp only [collectLinks, List.foldl_cons] at h ⊢
    rw [h]
    simp

/-- The search stage on an envelope with one `webPages` object holding one `value` array:
when each item decodes from the zero value to `x` without error, the links are the `URL`
fields of these `x`. -/
theorem bingSearchEngineAPI_of_items (w : World) (apiKey query body : String)
    (members pages : List (String × Json)) (items : List Json) (xs : List SearchItem)
    (hdo : w.searchDo apiKey query = .ok body)
    (hparse : w.parseJSON body = .ok (.obj members))
    (hpages : selected w.foldName "webPages" members = [.obj pages])
    (hvalue : selected w.foldName "value" pages = [.arr items])
    (hall : List.Forall₂ (fun item x => decodeSearchItem w ⟨""⟩ item = (x, none)) items xs) :
    bingSearchEngineAPI w apiKey query = (xs.map (fun v => v.URL), none) := by
  obtain ⟨helems, herr⟩ := decodeSlice_fresh w.growCap ⟨""⟩ (decodeSearchItem w) items xs hall
  have hdec : decodeSearchResult w SearchResult.zero (.obj members)
      = (⟨⟨(decodeSlice w.growCap ⟨""⟩ (decodeSearchItem w) GoSlice.nil (.arr items)).1⟩⟩,
          none) := by
    simp only [decodeSearchResult, decodeStruct]
    rw [decodeMembers_single _ _ _ _ _ _ _ _ _ hpages]
    simp only [decodeWebPages, decodeStruct, SearchResult.zero]
    rw [decodeMembers_single _ _ _ _ _ _ _ _ _ hvalue]
    simp [firstError, herr]
  simp [bingSearchEngineAPI, hdo, unmarshal, hparse, hdec, helems, collectLinks_eq]

/-! ## `bingSearchEngineAPI` -/

theorem decodeSearchItem_url (w : World) (members : List (String × Json)) (url : String)
    (h : selected w.foldName "url" members = [.str url]) :
    decodeSearchItem w ⟨""⟩ (.obj members) = (⟨url⟩, none) := by
  simp only [decodeSearchItem, decodeStruct]
  rw [decodeMembers_single _ _ _ _ _ _ _ _ _ h]
  rfl

theorem decodeSearchItem_no_url (w : World) (members : List (String × Json))
    (h : selected w.foldName "url" members = []) :
    decodeSearchItem w ⟨""⟩ (.obj members) = (⟨""⟩, none) := by
  simp only [decodeSearchItem, decodeStruct]
  rw [decodeMembers_skip _ _ _ _ _ _ _ h]

/-- Claim C9: when the body is a JSON object whose `webPages` member is an object whose
`value` member is an array of objects, each with a `url` string, `bingSearchEngineAPI`
returns without error these strings, one per array element, in the order of the array
(equal strings are all kept). -/
theorem C9_links_follow_the_array (w : World) (apiKey query body : String)
    (members pages : List (String × Json)) (items : List Json) (urls : List String)
    (hdo : w.searchDo apiKey query = .ok body)
    (hparse : w.parseJSON body = .ok (.obj members))
    (hpages : selected w.foldName "webPages" members = [.obj pages])
    (hvalue : selected w.foldName "value" pages = [.arr items])
    (hitems : List.Forall₂
      (fun item url => ∃ ms, item = .obj ms ∧ selected w.foldName "url" ms = [.str url])
      items urls) :
    bingSearchEngineAPI w apiKey query = (urls, none) ∧ urls.length = items.length := by
  have hall : List.Forall₂ (fun item x => decodeSearchItem w ⟨""⟩ item = (x, none))
      items (urls.map fun u => ⟨u⟩) := by
    rw [List.forall₂_map_right_iff]
    refine hitems.imp ?_
    rintro item url ⟨ms, rfl, hsel⟩
    exact decodeSearchItem_url w ms url hsel
  have h := bingSearchEngineAPI_of_items w apiKey query body members pages items _
    hdo hparse hpages hvalue hall
  refine ⟨?_, hitems.length_eq.symm⟩
  rw [h]
  simp [Function.comp_def]

theorem C9_links_follow_the_array_witness :
    bingSearchEngineAPI scenarioWorld "k1" "rust ownership"
      = (["https://a.example", "https://b.example", "https://c.example"], none) :=
  (C9_links_follow_the_array scenarioWorld "k1" "rust ownership"
    (scenarioSearchBody "rust ownership")
    [("webPages", .obj [("value", .arr
      [.obj [("url", .str "https://a.example")], .obj [("url", .str "https://b.example")],
       .obj [("url", .str "https://c.example")]])])]
    [("value", .arr
      [.obj [("url", .str "https://a.example")], .obj [("url", .str "https://b.example")],
       .obj [("url", .str "https://c.example")]])]
    [.obj [("url", .str "https://a.example")], .obj [("url", .str "https://b.example")],
     .obj [("url", .str "https://c.example")]]
    ["https://a.example", "https://b.example", "https://c.example"]
    rfl rfl rfl rfl
    (.cons ⟨_, rfl, rfl⟩ (.cons ⟨_, rfl, rfl⟩ (.cons ⟨_, rfl, rfl⟩ .nil)))).1

/-- Claim C10, as stated, fails: on the valid JSON body whose `webPages` member is the
number 5 the function returns a type error instead of an empty result without error; and
on a valid body whose only array element has no `url` member it returns a result that is
not empty (one empty string). -/
theorem C10_wrong_type_is_an_error :
    scenarioWorld.searchDo "k1" "wrong type" = .ok "\x7b\"webPages\":5\x7d" ∧
    scenarioWorld.parseJSON "\x7b\"webPages\":5\x7d" = .ok (.obj [("webPages", .num "5")]) ∧
    bingSearchEngineAPI scenarioWorld "k1" "wrong type"
      = ([], some (.unmarshalType "number" "struct")) ∧
    scenarioWorld.parseJSON (scenarioSearchBody "no url")
      = .ok (.obj [("webPages", .obj [("value", .arr [.obj [("name", .str "a")]])])]) ∧
    bingSearchEngineAPI scenarioWorld "k1" "no url" = ([""], none) :=
  ⟨rfl, rfl, by decide, rfl, by decide⟩

theorem decodeSearchItem_of_itemLink (w : World) (item : Json) (link : String)
    (h : itemLink w.foldName item = some link) :
    decodeSearchItem w ⟨""⟩ item = (⟨link⟩, none) := by
  cases item with
  | null =>
    simp only [itemLink, Option.some.injEq] at h
    subst h
    rfl
  | obj members =>
    simp only [itemLink] at h
    cases hsel : selected w.foldName "url" members with
    | nil =>
      rw [hsel] at h
      simp only [Option.some.injEq] at h
      subst h
      exact decodeSearchItem_no_url w members hsel
    | cons first more =>
      rw [hsel] at h
      cases more with
      | cons second more2 => cases first <;> simp at h
      | nil =>
        cases first with
        | null =>
          simp only [Option.some.injEq] at h
          subst h
          simp only [decodeSearchItem, decodeStruct]
          rw [decodeMembers_single _ _ _ _ _ _ _ _ _ hsel]
          rfl
        | str url =>
          simp only [Option.some.injEq] at h
          subst h
          exact decodeSearchItem_url w members url hsel
        | bool b => simp at h
        | num n => simp at h
        | arr xs => simp at h
        | obj ms => simp at h
  | bool b => simp [itemLink] at h
  | num n => simp [itemLink] at h
  | str x => simp [itemLink] at h
  | arr xs => simp [itemLink] at h

/-- Claim C10, amended: `bingSearchEngineAPI` returns no error exactly when the transport
succeeds, the body is valid JSON, and nothing met under `webPages`, `value` and `url` (nor
the body itself) has the wrong JSON type, `null` being accepted everywhere; with an error
the result is empty.  On a valid body in which each field is selected by at most one member
of its object, it returns an empty result and no error when the `webPages` member is missing
or `null`, or when it is an object whose `value` member is missing or `null`; and when
`value` is an array, every element contributes one entry, in order: its `url` string, or the
empty string for an element that is an object without a `url` member (or with a `null` one,
or is itself `null`), whatever the other elements are. -/
theorem C10_missing_fields_and_type_errors (w : World) (apiKey query : String) :
    ((bingSearchEngineAPI w apiKey query).2 = none ↔
      ∃ body j, w.searchDo apiKey query = .ok body ∧ w.parseJSON body = .ok j ∧
        searchBodyOK w.foldName j = true) ∧
    ((bingSearchEngineAPI w apiKey query).2 ≠ none →
      (bingSearchEngineAPI w apiKey query).1 = []) ∧
    (∀ body members, w.searchDo apiKey query = .ok body →
      w.parseJSON body = .ok (.obj members) →
      (selected w.foldName "webPages" members = [] ∨
        selected w.foldName "webPages" members = [.null]) →
      bingSearchEngineAPI w apiKey query = ([], none)) ∧
    (∀ body members pages, w.searchDo apiKey query = .ok body →
      w.parseJSON body = .ok (.obj members) →
      selected w.foldName "webPages" members = [.obj pages] →
      (selected w.foldName "value" pages = [] ∨
        selected w.foldName "value" pages = [.null]) →
      bingSearchEngineAPI w apiKey query = ([], none)) ∧
    (∀ body members pages items links, w.searchDo apiKey query = .ok body →
      w.parseJSON body = .ok (.obj members) →
      selected w.foldName "webPages" members = [.obj pages] →
      selected w.foldName "value" pages = [.arr items] →
      List.Forall₂ (fun item link => itemLink w.foldName item = some link) items links →
      bingSearchEngineAPI w apiKey query = (links, none) ∧ links.length = items.length) := by
  refine ⟨?_, ?_, ?_, ?_, ?_⟩
  · unfold bingSearchEngineAPI
    cases hdo : w.searchDo apiKey query with
    | doErr err => simp
    | readErr err => simp
    | ok body =>
      cases hparse : w.parseJSON body with
      | error err => simp [unmarshal, hparse]
      | ok j =>
        have hacc := decodeSearchResult_accepts w SearchResult.zero j
        simp only [unmarshal, hparse]
        cases herr : (decodeSearchResult w SearchResult.zero j).2 with
        | some err =>
          rw [herr] at hacc
          simp at hacc
          simp only [false_iff, reduceCtorEq]
          rintro ⟨body2, j2, hb, hp, hok⟩
          cases hb
          rw [hparse] at hp
          cases hp
          rw [hacc] at hok
          cases hok
        | none =>
          rw [herr] at hacc
          simp at hacc
          simp only [true_iff]
          exact ⟨body, j, rfl, hparse, hacc⟩
  · unfold bingSearchEngineAPI
    cases w.searchDo apiKey query with
    | doErr err => simp
    | readErr err => simp
    | ok body =>
      simp only
      cases (unmarshal w (decodeSearchResult w) SearchResult.zero body).2 <;> simp
  · intro body members hdo hparse hsel
    have hdec : decodeSearchResult w SearchResult.zero (.obj members)
        = (SearchResult.zero, none) := by
      simp only [decodeSearchResult, decodeStruct]
      rcases hsel with hsel | hsel
      · rw [decodeMembers_skip _ _ _ _ _ _ _ hsel]
      · rw [decodeMembers_single _ _ _ _ _ _ _ _ _ hsel]
        rfl
    simp only [bingSearchEngineAPI, hdo, unmarshal, hparse, hdec]
    rfl
  · intro body members pages hdo hparse hpages hsel
    have hdec : decodeSearchResult w SearchResult.zero (.obj members)
        = (SearchResult.zero, none) := by
      simp only [decodeSearchResult, decodeStruct]
      rw [decodeMembers_single _ _ _ _ _ _ _ _ _ hpages]
      simp only [decodeWebPages, decodeStruct]
      rcases hsel with hsel | hsel
      · rw [decodeMembers_skip _ _ _ _ _ _ _ hsel]
        rfl
      · rw [decodeMembers_single _ _ _ _ _ _ _ _ _ hsel]
        rfl
    simp only [bingSearchEngineAPI, hdo, unmarshal, hparse, hdec]
    rfl
  · intro body members pages items links hdo hparse hpages hvalue hitems
    have hall : List.Forall₂ (fun item x => decodeSearchItem w ⟨""⟩ item = (x, none))
        items (links.map fun u => ⟨u⟩) := by
      rw [List.forall₂_map_right_iff]
      exact hitems.imp fun item link h => decodeSearchItem_of_itemLink w item link h
    have h := bingSearchEngineAPI_of_items w apiKey query body members pages items _
      hdo hparse hpages hvalue hall
    refine ⟨?_, hitems.length_eq.symm⟩
    rw [h]
    simp [Function.comp_def]

theorem C10_missing_fields_and_type_errors_witness :
    bingSearchEngineAPI scenarioWorld "k1" "mixed" = (["https://a.example", ""], none) ∧
    bingSearchEngineAPI scenarioWorld "k1" "empty object" = ([], none) :=
  ⟨((C10_missing_fields_and_type_errors scenarioWorld "k1" "mixed").2.2.2.2
      (scenarioSearchBody "mixed")
      [("webPages", .obj [("value", .arr
        [.obj [("url", .str "https://a.example")], .obj [("name", .str "b")]])])]
      [("value", .arr [.obj [("url", .str "https://a.example")], .obj [("name", .str "b")]])]
      [.obj [("url", .str "https://a.example")], .obj [("name", .str "b")]]
      ["https://a.example", ""]
      rfl rfl rfl rfl (.cons (by decide) (.cons (by decide) .nil))).1,
   (C10_missing_fields_and_type_errors scenarioWorld "k1" "empty object").2.2.1
    "\x7b\x7d" [] rfl rfl (Or.inl rfl)⟩

end TwoE100
